import Mathlib

/-!
# Verification of the client-side audio extraction and captioning glue

A shallow embedding of the resampler/encoder (`encodeWAV`), the audio
extraction pipeline (`extractAudioFromVideo`), the SubRip export
(`handleExport`) and the file-size gate (`handleFileChange`) of the
browser-based captioning tool, together with theorems settling the
specification's claims about them.

Floating-point samples and sample rates are modelled as rationals: every
arithmetic step of the source (clamping, multiplication of a 32-bit float
by 32767 or by the power of two 32768, division of small integers) is
exact in double precision on the inputs the claims quantify over, so the
rational model computes the same values.
-/

namespace AutoCaption

/-- JavaScript `Math.round`: round half toward positive infinity. -/
def jsRound (q : ℚ) : ℤ := ⌊q + 1 / 2⌋

/-- Truncation toward zero of a rational number, as performed by the
ECMAScript `truncate` step of integer conversion. -/
def truncTowardZero (q : ℚ) : ℤ := if q < 0 then ⌈q⌉ else ⌊q⌋

/-- ECMAScript `ToInt16` applied to an integer: reduce modulo 2^16 into
`[0, 65536)`, then re-centre into the signed 16-bit range. This is the
conversion performed by a store into an `Int16Array`. -/
def toInt16 (n : ℤ) : ℤ :=
  if n % 65536 < 32768 then n % 65536 else n % 65536 - 65536

/-- One sample of `encodeWAV`'s inner loop on an in-range read:
`val = Math.max(-1, Math.min(1, x))` followed by
`resultData[i] = val < 0 ? val * 0x8000 : val * 0x7FFF`, where the store
into the `Int16Array` truncates toward zero and wraps via `ToInt16`. -/
def quantize (x : ℚ) : ℤ :=
  let val := max (-1) (min 1 x)
  toInt16 (truncTowardZero (if val < 0 then val * 0x8000 else val * 0x7FFF))

/-- The decoded waveform handed to `encodeWAV`: the source-native sample
rate and one floating-point sequence per channel. -/
structure DecodedAudio where
  sampleRate : ℚ
  channels : List (List ℚ)

/-- `audioBuffer.getChannelData(0)`. -/
def channel0 (audio : DecodedAudio) : List ℚ := audio.channels.headD []

/-- `ratio = originalSampleRate / sampleRate` with the fixed target rate
16000. -/
def ratio (audio : DecodedAudio) : ℚ := audio.sampleRate / 16000

/-- `newLength = Math.round(oldData.length / ratio)`. -/
def newLength (audio : DecodedAudio) : ℕ :=
  (jsRound (((channel0 audio).length : ℚ) / ratio audio)).toNat

/-- `Math.max(-1, Math.min(1, oldData[offset]))` quantized and stored.
A JavaScript typed-array read at an out-of-range index yields `undefined`;
`Math.min(1, undefined)` is then NaN, the conditional takes the
non-negative branch, `NaN * 0x7FFF` is NaN, and storing NaN into an
`Int16Array` yields 0. -/
def quantizeAt (data : List ℚ) (offset : ℤ) : ℤ :=
  if 0 ≤ offset then
    match data[offset.toNat]? with
    | some x => quantize x
    | none => 0
  else 0

/-- The body of the resampling loop at output index `i`:
`offset = Math.round(i * ratio)` read, clamped, quantized. -/
def outputSample (audio : DecodedAudio) (i : ℕ) : ℤ :=
  quantizeAt (channel0 audio) (jsRound ((i : ℚ) * ratio audio))

/-- The filled `resultData` Int16Array, as the list of its (signed)
entries. -/
def resultData (audio : DecodedAudio) : List ℤ :=
  (List.range (newLength audio)).map (outputSample audio)

/-- Little-endian byte decomposition: `k` bytes of `v`, least significant
first. `DataView.setUint32`/`setUint16` store exactly the first 4 resp. 2
such bytes. -/
def bytesLE : ℕ → ℕ → List ℕ
  | 0, _ => []
  | k + 1, v => v % 256 :: bytesLE k (v / 256)

/-- The two little-endian bytes of one signed 16-bit sample inside the
`Int16Array`'s backing buffer. -/
def int16Bytes (s : ℤ) : List ℕ := bytesLE 2 (s % 65536).toNat

/-- The 44-byte RIFF/WAVE header written by `encodeWAV`, with the fixed
parameters `numChannels = 1`, `sampleRate = 16000`, `format = 1`,
`bitDepth = 16` of the source. -/
def wavHeader (dataByteLen : ℕ) : List ℕ :=
  let numChannels := 1
  let sampleRate := 16000
  let format := 1
  let bitDepth := 16
  [82, 73, 70, 70] ++
  bytesLE 4 (36 + dataByteLen) ++
  [87, 65, 86, 69] ++
  [102, 109, 116, 32] ++
  bytesLE 4 16 ++
  bytesLE 2 format ++
  bytesLE 2 numChannels ++
  bytesLE 4 sampleRate ++
  bytesLE 4 (sampleRate * numChannels * (bitDepth / 8)) ++
  bytesLE 2 (numChannels * (bitDepth / 8)) ++
  bytesLE 2 bitDepth ++
  [100, 97, 116, 97] ++
  bytesLE 4 dataByteLen

/-- `resultData.byteLength`: two bytes per 16-bit sample. -/
def dataByteLength (audio : DecodedAudio) : ℕ := 2 * (resultData audio).length

/-- The complete PCM blob produced by `encodeWAV`: the 44-byte header
followed by the samples as contiguous little-endian 16-bit integers. -/
def encodeWAV (audio : DecodedAudio) : List ℕ :=
  wavHeader (dataByteLength audio) ++ (resultData audio).flatMap int16Bytes

/-- Little-endian reading of `k` bytes of a blob starting at `off`
(missing bytes read as 0). -/
def readLE (blob : List ℕ) (off : ℕ) : ℕ → ℕ
  | 0 => 0
  | k + 1 => blob.getD off 0 + 256 * readLE blob (off + 1) k

/-- The 48 kHz constant-half-amplitude input of end-to-end scenario A. -/
def scenarioA : DecodedAudio := DecodedAudio.mk 48000 [List.replicate 48000 (1 / 2)]

/-! ## The extraction pipeline -/

/-- The single user-facing message thrown by the catch-all handler of
`extractAudioFromVideo`. -/
def extractionFailureMessage : String :=
  "Failed to extract audio. The file might be corrupt or the format is unsupported."

/-- `extractAudioFromVideo`, with the two host effects abstracted as
arguments: reading the selected file into a buffer
(`videoFile.arrayBuffer()`) and the host decode primitive
(`audioContext.decodeAudioData`). The whole body runs inside one `try`;
any failure reaches the single `catch`, which discards the original error
and throws the fixed message. The value returned to the caller is the
encoded PCM blob (the base64 transport step is an injective re-encoding of
it and is elided). -/
def extractAudioFromVideo (readFile : Except String (List ℕ))
    (decodeAudioData : List ℕ → Except String DecodedAudio) :
    Except String (List ℕ) :=
  match readFile.bind fun buf => (decodeAudioData buf).map encodeWAV with
  | Except.ok blob => Except.ok blob
  | Except.error _ => Except.error extractionFailureMessage

/-! ## SubRip export -/

/-- A caption segment as produced by the transcription boundary. -/
structure Caption where
  id : String
  startTime : ℚ
  endTime : ℚ
  text : String

/-- The decimal digit character for a digit value. -/
def digitChar (n : ℕ) : Char := Char.ofNat (48 + n)

/-- `new Date(v)` clips its numeric argument by truncation toward zero. -/
def jsDateMs (t : ℚ) : ℤ := truncTowardZero (t * 1000)

/-- The characters of `toISOString().slice(11, 23)`: the zero-padded
`HH:MM:SS.mmm` time-of-day fields of the JavaScript Date holding `ms`
non-negative milliseconds (hours reduced modulo 24 by the Date
breakdown). -/
def isoTimeChars (ms : ℕ) : List Char :=
  [digitChar (ms / 3600000 % 24 / 10), digitChar (ms / 3600000 % 24 % 10), ':',
   digitChar (ms / 60000 % 60 / 10), digitChar (ms / 60000 % 60 % 10), ':',
   digitChar (ms / 1000 % 60 / 10), digitChar (ms / 1000 % 60 % 10), '.',
   digitChar (ms % 1000 / 100), digitChar (ms % 1000 / 10 % 10), digitChar (ms % 1000 % 10)]

/-- JavaScript `replace` with the one-character string pattern used in
`handleExport`: replace the first occurrence of a full stop. -/
def replaceFirstDot : List Char → List Char
  | [] => []
  | c :: rest => if c = '.' then ',' :: rest else c :: replaceFirstDot rest

/-- `new Date(t * 1000).toISOString().slice(11, 23).replace(".", ",")`
for a non-negative number `t` of seconds. -/
def srtTimestamp (t : ℚ) : String :=
  String.mk (replaceFirstDot (isoTimeChars (jsDateMs t).toNat))

/-- One iteration of the `handleExport` loop: sequence-number line,
timestamp line, caption text, blank-line separator. -/
def srtEntry (index : ℕ) (cap : Caption) : String :=
  toString (index + 1) ++ "\n" ++ srtTimestamp cap.startTime ++ " --> " ++
    srtTimestamp cap.endTime ++ "\n" ++ cap.text ++ "\n\n"

/-- The accumulated `srtContent` of `handleExport`. -/
def srtContent (captions : List Caption) : String :=
  captions.enum.foldl (fun acc p => acc ++ srtEntry p.1 p.2) ""

/-- The timestamp described by the specification, written against the
spec's words for comparison with `srtTimestamp`: two-digit hour, minute
and second fields and a three-digit millisecond field of the caption time
itself (no day wrap-around), with colons between the first three fields
and a comma before the milliseconds. -/
def specTimestamp (ms : ℕ) : String :=
  String.mk
    [digitChar (ms / 3600000 / 10), digitChar (ms / 3600000 % 10), ':',
     digitChar (ms / 60000 % 60 / 10), digitChar (ms / 60000 % 60 % 10), ':',
     digitChar (ms / 1000 % 60 / 10), digitChar (ms / 1000 % 60 % 10), ',',
     digitChar (ms % 1000 / 100), digitChar (ms % 1000 / 10 % 10), digitChar (ms % 1000 % 10)]

/-! ## The file-selection gate -/

/-- The two attributes of a selected file that `handleFileChange`
reads. -/
structure JsFile where
  name : String
  size : ℕ

/-- The pieces of the component state that `handleFileChange` touches. -/
structure AppState where
  videoFile : Option JsFile
  videoUrl : Option String
  captions : List Caption
  error : Option String

/-- `MAX_FILE_SIZE_MB` from the constants module. -/
def MAX_FILE_SIZE_MB : ℕ := 500

/-- The template literal interpolated by `handleFileChange`. -/
def fileTooLargeMessage : String :=
  "File is too large. Max size is " ++ toString MAX_FILE_SIZE_MB ++ "MB."

/-- `handleFileChange`: reject a file above the size limit, leaving all
other state as it was; otherwise load it, resetting captions and error
(`URL.createObjectURL(file)` is abstracted as the `newUrl` argument, and
the `revokeObjectURL` side effect has no state). -/
def handleFileChange (st : AppState) (selected : Option JsFile) (newUrl : String) :
    AppState :=
  match selected with
  | none => st
  | some file =>
    if file.size > MAX_FILE_SIZE_MB * 1024 * 1024 then
      { st with error := some fileTooLargeMessage }
    else
      { st with videoFile := some file, videoUrl := some newUrl,
                captions := [], error := none }

/-! ## Helper lemmas -/

theorem bytesLE_length (k v : ℕ) : (bytesLE k v).length = k := by
  induction k generalizing v with
  | zero => rfl
  | succ n ih => simp [bytesLE, ih]

theorem toInt16_eq_self (n : ℤ) (h1 : -32768 ≤ n) (h2 : n < 32768) :
    toInt16 n = n := by
  unfold toInt16
  omega

/-- The scale-and-store step never wraps: on a clamped sample it is exactly
the asymmetric scaling followed by truncation toward zero (written as the
ceiling on the negative branch, where the scaled value is negative). -/
theorem quantize_eq_clamp_trunc (x : ℚ) :
    quantize x =
      if max (-1) (min 1 x) < 0 then ⌈max (-1) (min 1 x) * 32768⌉
      else ⌊max (-1) (min 1 x) * 32767⌋ := by
  have hc1 : (-1 : ℚ) ≤ max (-1) (min 1 x) := le_max_left _ _
  have hc2 : max (-1 : ℚ) (min 1 x) ≤ 1 := max_le (by norm_num) (min_le_left _ _)
  simp only [quantize, truncTowardZero]
  set c := max (-1 : ℚ) (min 1 x) with hc
  by_cases hneg : c < 0
  · have hlt : c * 0x8000 < 0 := mul_neg_of_neg_of_pos hneg (by norm_num)
    have hge : (-32768 : ℚ) ≤ c * 0x8000 := by nlinarith
    rw [if_pos hneg, if_pos hneg, if_pos hlt]
    refine toInt16_eq_self _ ?_ ?_
    · have := Int.ceil_le_ceil (α := ℚ) hge
      simpa using this
    · have h0 : ⌈c * 0x8000⌉ ≤ 0 := Int.ceil_le.2 (by exact_mod_cast hlt.le)
      omega
  · have h0 : (0 : ℚ) ≤ c := not_lt.1 hneg
    have hnn : (0 : ℚ) ≤ c * 0x7FFF := by positivity
    have hle : c * 0x7FFF ≤ 32767 := by nlinarith
    rw [if_neg hneg, if_neg hneg, if_neg (not_lt.2 hnn)]
    refine toInt16_eq_self _ ?_ ?_
    · have := Int.floor_nonneg.2 hnn
      omega
    · have := Int.floor_le_floor (α := ℚ) hle
      simp only [Int.floor_intCast] at this
      have h32 : ⌊(32767 : ℚ)⌋ = 32767 := by norm_num
      omega

/-! ## Claims about the quantizer and the resampling loop -/

/-- C1 (amended): the encoder clamps each sample to [-1, 1]; a negative
clamped value is multiplied by 32768 and truncated toward zero (the
`Int16Array` store truncates, it does not floor), a non-negative one is
multiplied by 32767 and truncated; inputs 1.0, -1.0 and 0.0 give 32767,
-32768 and 0. -/
theorem C1_quantize_clamped_scaling :
    (∀ x : ℚ, quantize x =
        if max (-1) (min 1 x) < 0 then ⌈max (-1) (min 1 x) * 32768⌉
        else ⌊max (-1) (min 1 x) * 32767⌋) ∧
    quantize 1 = 32767 ∧ quantize (-1) = -32768 ∧ quantize 0 = 0 := by
  refine ⟨quantize_eq_clamp_trunc, ?_, ?_, ?_⟩
  · rw [quantize_eq_clamp_trunc]
    norm_num [max_def, min_def]
  · rw [quantize_eq_clamp_trunc]
    norm_num [max_def, min_def]
    rw [Int.ceil_eq_iff]
    constructor <;> norm_num
  · rw [quantize_eq_clamp_trunc]
    norm_num [max_def, min_def]

/-- C1 fails as stated: at the sample -1/65536 the clamp is the identity
and the scaled value is -1/2, whose truncation toward the more negative
integer is -1, but the encoder produces 0 (truncation toward zero). -/
theorem C1_floor_counterexample :
    quantize (-(1 / 65536)) = 0 ∧
    ⌊max (-1) (min 1 (-(1 / 65536) : ℚ)) * 32768⌋ = -1 := by
  constructor
  · rw [quantize_eq_clamp_trunc]
    norm_num [max_def, min_def]
  · norm_num [max_def, min_def]

/-- C2: an output index whose computed source offset reaches or exceeds
the source frame count yields the silence sample 0 (the out-of-range read
gives `undefined`, hence NaN after clamping, which stores as 0), and the
lookup itself is in range, so nothing crashes. -/
theorem C2_out_of_range_silence (audio : DecodedAudio) (i : ℕ)
    (hi : i < newLength audio)
    (hoff : ((channel0 audio).length : ℤ) ≤ jsRound ((i : ℚ) * ratio audio)) :
    (resultData audio)[i]? = some 0 := by
  have h1 : (resultData audio)[i]? = some (outputSample audio i) := by
    simp [resultData, hi]
  rw [h1]
  unfold outputSample quantizeAt
  have h0 : (0 : ℤ) ≤ jsRound ((i : ℚ) * ratio audio) :=
    le_trans (Int.natCast_nonneg _) hoff
  rw [if_pos h0]
  have hnone : (channel0 audio)[(jsRound ((i : ℚ) * ratio audio)).toNat]? = none := by
    rw [List.getElem?_eq_none_iff]
    omega
  rw [hnone]

/-- C2 witness: at sample rate 32000/3 a single-sample input has
`newLength = 2` and at output index 1 the offset is 1 ≥ 1, so the output
sample is 0. -/
theorem C2_out_of_range_silence_witness :
    1 < newLength (DecodedAudio.mk (32000 / 3) [[1 / 2]]) ∧
    ((channel0 (DecodedAudio.mk (32000 / 3) [[1 / 2]])).length : ℤ) ≤
      jsRound ((1 : ℚ) * ratio (DecodedAudio.mk (32000 / 3) [[1 / 2]])) ∧
    (resultData (DecodedAudio.mk (32000 / 3) [[1 / 2]]))[1]? = some 0 := by
  have ha : 1 < newLength (DecodedAudio.mk (32000 / 3) [[1 / 2]]) := by
    norm_num [newLength, channel0, ratio, jsRound]
  have hb : ((channel0 (DecodedAudio.mk (32000 / 3) [[1 / 2]])).length : ℤ) ≤
      jsRound ((1 : ℚ) * ratio (DecodedAudio.mk (32000 / 3) [[1 / 2]])) := by
    norm_num [channel0, ratio, jsRound]
  exact ⟨ha, hb, C2_out_of_range_silence (DecodedAudio.mk (32000 / 3) [[1 / 2]]) 1 ha hb⟩

theorem sum_map_int16Bytes_length (l : List ℤ) :
    (List.map (List.length ∘ int16Bytes) l).sum = 2 * l.length := by
  induction l with
  | nil => rfl
  | cons a t ih =>
    simp only [List.map_cons, List.sum_cons, ih, Function.comp, int16Bytes, bytesLE,
      List.length_cons, List.length_nil]
    ring

theorem encodeWAV_length (audio : DecodedAudio) :
    (encodeWAV audio).length = 44 + dataByteLength audio := by
  simp [encodeWAV, wavHeader, bytesLE, sum_map_int16Bytes_length, dataByteLength]
  omega

/-- C3: every output blob is a 44-byte header followed by the payload; the
ASCII tags RIFF, WAVE, fmt-space and data sit at offsets 0, 8, 12 and 36;
the fmt sub-chunk declares size 16, format 1, one channel, sample rate
16000, byte rate 32000, block align 2 and 16 bits per sample; bytes 4-7
hold totalBytes - 8 = 36 + dataByteLength, bytes 40-43 hold
dataByteLength, and dataByteLength is the actual payload size (stated for
payloads whose declared size fits the 32-bit header field). -/
theorem C3_header_layout (audio : DecodedAudio)
    (h : dataByteLength audio + 36 < 2 ^ 32) :
    (encodeWAV audio).length = 44 + dataByteLength audio ∧
    ((encodeWAV audio).drop 44).length = dataByteLength audio ∧
    (encodeWAV audio).take 4 = [82, 73, 70, 70] ∧
    readLE (encodeWAV audio) 4 4 = (encodeWAV audio).length - 8 ∧
    ((encodeWAV audio).drop 8).take 4 = [87, 65, 86, 69] ∧
    ((encodeWAV audio).drop 12).take 4 = [102, 109, 116, 32] ∧
    readLE (encodeWAV audio) 16 4 = 16 ∧
    readLE (encodeWAV audio) 20 2 = 1 ∧
    readLE (encodeWAV audio) 22 2 = 1 ∧
    readLE (encodeWAV audio) 24 4 = 16000 ∧
    readLE (encodeWAV audio) 28 4 = 32000 ∧
    readLE (encodeWAV audio) 32 2 = 2 ∧
    readLE (encodeWAV audio) 34 2 = 16 ∧
    ((encodeWAV audio).drop 36).take 4 = [100, 97, 116, 97] ∧
    readLE (encodeWAV audio) 40 4 = dataByteLength audio := by
  have hlen := encodeWAV_length audio
  refine ⟨hlen, ?_, ?_, ?_, ?_, ?_, ?_, ?_, ?_, ?_, ?_, ?_, ?_, ?_, ?_⟩
  · simp [encodeWAV, wavHeader, bytesLE, sum_map_int16Bytes_length, dataByteLength]
  · simp [encodeWAV, wavHeader, bytesLE]
  · rw [hlen]
    simp [encodeWAV, wavHeader, bytesLE, readLE]
    omega
  · simp [encodeWAV, wavHeader, bytesLE]
  · simp [encodeWAV, wavHeader, bytesLE]
  · simp [encodeWAV, wavHeader, bytesLE, readLE]
  · simp [encodeWAV, wavHeader, bytesLE, readLE]
  · simp [encodeWAV, wavHeader, bytesLE, readLE]
  · simp [encodeWAV, wavHeader, bytesLE, readLE]
  · simp [encodeWAV, wavHeader, bytesLE, readLE]
  · simp [encodeWAV, wavHeader, bytesLE, readLE]
  · simp [encodeWAV, wavHeader, bytesLE, readLE]
  · simp [encodeWAV, wavHeader, bytesLE]
  · simp [encodeWAV, wavHeader, bytesLE, readLE]
    omega

/-- C3 witness at a two-sample input at the target rate. -/
theorem C3_header_layout_witness :
    dataByteLength (DecodedAudio.mk 16000 [[1 / 2, -1]]) + 36 < 2 ^ 32 ∧
    (encodeWAV (DecodedAudio.mk 16000 [[1 / 2, -1]])).length =
      44 + dataByteLength (DecodedAudio.mk 16000 [[1 / 2, -1]]) := by
  have hh : dataByteLength (DecodedAudio.mk 16000 [[1 / 2, -1]]) + 36 < 2 ^ 32 := by
    norm_num [dataByteLength, resultData, newLength, channel0, ratio, jsRound]
    omega
  exact ⟨hh, (C3_header_layout (DecodedAudio.mk 16000 [[1 / 2, -1]]) hh).1⟩

theorem jsRound_intCast (m : ℤ) : jsRound ((m : ℚ)) = m := by
  unfold jsRound
  rw [Int.floor_eq_iff]
  constructor <;> norm_num

theorem jsRound_natCast (n : ℕ) : jsRound ((n : ℚ)) = (n : ℤ) := by
  have := jsRound_intCast (n : ℤ)
  rwa [Int.cast_natCast] at this

theorem scenarioA_ratio : ratio scenarioA = 3 := by norm_num [ratio, scenarioA]

theorem scenarioA_newLength : newLength scenarioA = 16000 := by
  rw [newLength, scenarioA_ratio]
  norm_num [scenarioA, channel0, jsRound]
  rfl

theorem quantize_half : quantize (1 / 2) = 16383 := by
  rw [quantize_eq_clamp_trunc]
  norm_num [max_def, min_def]

theorem scenarioA_sample (i : ℕ) (hi : i < 16000) : outputSample scenarioA i = 16383 := by
  unfold outputSample quantizeAt
  rw [scenarioA_ratio]
  have h3 : ((i : ℚ)) * 3 = (((3 * i : ℕ) : ℤ) : ℚ) := by push_cast; ring
  rw [h3, jsRound_intCast]
  have hlt : 3 * i < 48000 := by omega
  rw [if_pos (by positivity)]
  have hget : (List.replicate 48000 (1 / 2 : ℚ))[3 * i]? = some (1 / 2) := by
    rw [List.getElem?_replicate, if_pos hlt]
  rw [show channel0 scenarioA = List.replicate 48000 (1 / 2 : ℚ) from rfl,
    Int.toNat_natCast, hget]
  exact quantize_half

/-- C4: for a 48000 Hz mono input of 48000 samples all equal to 0.5 the
ratio is 3, the output length is 16000, every output sample is 16383, the
payload is 32000 bytes and the blob is 32044 bytes. -/
theorem C4_scenarioA_end_to_end :
    ratio scenarioA = 3 ∧
    newLength scenarioA = 16000 ∧
    resultData scenarioA = List.replicate 16000 16383 ∧
    dataByteLength scenarioA = 32000 ∧
    (encodeWAV scenarioA).length = 32044 := by
  have hres : resultData scenarioA = List.replicate 16000 16383 := by
    rw [resultData, scenarioA_newLength, List.eq_replicate_iff]
    refine ⟨by simp only [List.length_map, List.length_range], fun b hb => ?_⟩
    obtain ⟨i, hi, rfl⟩ := List.mem_map.1 hb
    exact scenarioA_sample i (List.mem_range.1 hi)
  have hd : dataByteLength scenarioA = 32000 := by
    rw [dataByteLength, hres]
    simp only [List.length_replicate]
  refine ⟨scenarioA_ratio, scenarioA_newLength, hres, hd, ?_⟩
  rw [encodeWAV_length, hd]

/-- C5: at a source rate of 16000 the resampler is positionally the
identity: the output has as many samples as channel 0 of the input, and
output sample i is the quantization of input sample i. -/
theorem C5_identity_at_16k (audio : DecodedAudio) (h : audio.sampleRate = 16000) :
    newLength audio = (channel0 audio).length ∧
    ∀ i, i < (channel0 audio).length →
      (resultData audio)[i]? = some (quantize ((channel0 audio).getD i 0)) := by
  have hr : ratio audio = 1 := by rw [ratio, h]; norm_num
  have hn : newLength audio = (channel0 audio).length := by
    rw [newLength, hr, div_one, jsRound_natCast]
    exact Int.toNat_natCast _
  refine ⟨hn, fun i hi => ?_⟩
  have hi' : i < newLength audio := by omega
  have h1 : (resultData audio)[i]? = some (outputSample audio i) := by
    rw [resultData, List.getElem?_map]
    rw [show (List.range (newLength audio))[i]? = some i by
      simp [List.getElem?_range, hi']]
    rfl
  rw [h1]
  unfold outputSample quantizeAt
  rw [hr, mul_one, jsRound_natCast, if_pos (Int.natCast_nonneg _), Int.toNat_natCast]
  rw [List.getElem?_eq_getElem hi, List.getD_eq_getElem _ 0 hi]

/-- C5 witness at a one-sample input. -/
theorem C5_identity_at_16k_witness :
    (DecodedAudio.mk 16000 [[1 / 2]]).sampleRate = 16000 ∧
    newLength (DecodedAudio.mk 16000 [[1 / 2]]) =
      (channel0 (DecodedAudio.mk 16000 [[1 / 2]])).length ∧
    (resultData (DecodedAudio.mk 16000 [[1 / 2]]))[0]? =
      some (quantize ((channel0 (DecodedAudio.mk 16000 [[1 / 2]])).getD 0 0)) :=
  ⟨rfl, (C5_identity_at_16k _ rfl).1,
    (C5_identity_at_16k (DecodedAudio.mk 16000 [[1 / 2]]) rfl).2 0 (by simp [channel0])⟩

/-- C6: with no source frames the encoder yields a bare 44-byte header
whose size fields read 36 and 0 and whose data payload is empty. -/
theorem C6_empty_input (audio : DecodedAudio) (h : (channel0 audio).length = 0) :
    dataByteLength audio = 0 ∧
    (encodeWAV audio).length = 44 ∧
    readLE (encodeWAV audio) 4 4 = 36 ∧
    readLE (encodeWAV audio) 40 4 = 0 := by
  have hn : newLength audio = 0 := by
    rw [newLength, h]
    norm_num [jsRound]
  have hd : dataByteLength audio = 0 := by
    simp [dataByteLength, resultData, hn]
  refine ⟨hd, ?_, ?_, ?_⟩
  · rw [encodeWAV_length, hd]
  · simp [encodeWAV, resultData, hn, dataByteLength, wavHeader, bytesLE, readLE]
  · simp [encodeWAV, resultData, hn, dataByteLength, wavHeader, bytesLE, readLE]

/-- C6 witness at an input with an empty channel list. -/
theorem C6_empty_input_witness :
    (channel0 (DecodedAudio.mk 48000 [])).length = 0 ∧
    dataByteLength (DecodedAudio.mk 48000 []) = 0 ∧
    (encodeWAV (DecodedAudio.mk 48000 [])).length = 44 :=
  ⟨rfl, (C6_empty_input (DecodedAudio.mk 48000 []) rfl).1,
    (C6_empty_input (DecodedAudio.mk 48000 []) rfl).2.1⟩

/-- C7: the output is byte-identical for two decoded inputs that agree on
the sample rate and on channel 0, whatever the data in the remaining
channels: only channel 0 is read. -/
theorem C7_channel0_only (r : ℚ) (ch : List ℚ) (rest rest' : List (List ℚ)) :
    encodeWAV (DecodedAudio.mk r (ch :: rest)) =
      encodeWAV (DecodedAudio.mk r (ch :: rest')) := rfl

/-! ## Lemmas for the SubRip export -/

theorem digitChar_ne_dot : ∀ k, k < 10 → digitChar k ≠ '.' := by decide

theorem colon_ne_dot : (':' : Char) ≠ '.' := by decide

theorem string_join_cons (s : String) (l : List String) :
    String.join (s :: l) = s ++ String.join l := String.ext (by simp)

theorem string_append_empty (a : String) : a ++ "" = a := String.ext (by simp)

theorem string_empty_append (a : String) : "" ++ a = a := String.ext (by simp)

theorem string_append_assoc (a b c : String) : a ++ b ++ c = a ++ (b ++ c) :=
  String.ext (by simp)

theorem replaceFirstDot_append (pre : List Char) (rest : List Char)
    (hpre : ∀ c ∈ pre, c ≠ '.') :
    replaceFirstDot (pre ++ '.' :: rest) = pre ++ ',' :: rest := by
  induction pre with
  | nil => simp [replaceFirstDot]
  | cons c t ih =>
    have hc : c ≠ '.' := hpre c (by simp)
    simp only [List.cons_append, replaceFirstDot, if_neg hc]
    show c :: replaceFirstDot (t ++ '.' :: rest) = c :: (t ++ ',' :: rest)
    rw [ih fun d hd => hpre d (by simp [hd])]

theorem jsDateMs_toNat_lt (t : ℚ) (h0 : 0 ≤ t) (h1 : t < 86400) :
    (jsDateMs t).toNat < 86400000 := by
  have hq : t * 1000 < 86400000 := by nlinarith
  have hnn : (0 : ℚ) ≤ t * 1000 := by positivity
  have heq : jsDateMs t = ⌊t * 1000⌋ := by
    rw [jsDateMs, truncTowardZero, if_neg (not_lt.2 hnn)]
  have hfl : ⌊t * 1000⌋ < 86400000 := by
    rw [Int.floor_lt]
    push_cast
    exact hq
  omega

/-- Below one day of caption time the produced timestamp string is exactly
the specification's field decomposition with a comma before the
milliseconds. -/
theorem srtTimestamp_eq_spec (t : ℚ) (h0 : 0 ≤ t) (h1 : t < 86400) :
    srtTimestamp t = specTimestamp (jsDateMs t).toNat := by
  have hms := jsDateMs_toNat_lt t h0 h1
  set ms := (jsDateMs t).toNat with hmsdef
  have h24 : ms / 3600000 % 24 = ms / 3600000 := Nat.mod_eq_of_lt (by omega)
  rw [srtTimestamp, specTimestamp, isoTimeChars, ← hmsdef]
  rw [show
      [digitChar (ms / 3600000 % 24 / 10), digitChar (ms / 3600000 % 24 % 10), ':',
       digitChar (ms / 60000 % 60 / 10), digitChar (ms / 60000 % 60 % 10), ':',
       digitChar (ms / 1000 % 60 / 10), digitChar (ms / 1000 % 60 % 10), '.',
       digitChar (ms % 1000 / 100), digitChar (ms % 1000 / 10 % 10),
       digitChar (ms % 1000 % 10)] =
      ([digitChar (ms / 3600000 % 24 / 10), digitChar (ms / 3600000 % 24 % 10), ':',
        digitChar (ms / 60000 % 60 / 10), digitChar (ms / 60000 % 60 % 10), ':',
        digitChar (ms / 1000 % 60 / 10), digitChar (ms / 1000 % 60 % 10)] ++ '.' ::
       [digitChar (ms % 1000 / 100), digitChar (ms % 1000 / 10 % 10),
        digitChar (ms % 1000 % 10)]) from rfl]
  rw [replaceFirstDot_append _ _ ?hside, h24]
  case hside =>
    intro c hc
    fin_cases hc
    · exact digitChar_ne_dot _ (by omega)
    · exact digitChar_ne_dot _ (by omega)
    · exact colon_ne_dot
    · exact digitChar_ne_dot _ (by omega)
    · exact digitChar_ne_dot _ (by omega)
    · exact colon_ne_dot
    · exact digitChar_ne_dot _ (by omega)
    · exact digitChar_ne_dot _ (by omega)
  rfl

theorem foldl_srtEntry (l : List (ℕ × Caption)) (init : String) :
    l.foldl (fun acc p => acc ++ srtEntry p.1 p.2) init =
      init ++ String.join (l.map fun p => srtEntry p.1 p.2) := by
  induction l generalizing init with
  | nil => exact (string_append_empty init).symm
  | cons p t ih =>
    simp only [List.foldl_cons, List.map_cons]
    rw [ih, string_join_cons, string_append_assoc]

/-! ## Claims about the pipeline, the export and the file gate -/

/-- C8 fails as stated: a loader-stage read failure is not surfaced
verbatim to the caller; the single catch-all handler replaces it with the
fixed corrupt-or-unsupported decode message. -/
theorem C8_io_error_counterexample :
    extractAudioFromVideo (Except.error "NotReadableError")
        (fun _ => Except.ok (DecodedAudio.mk 16000 [])) =
      Except.error extractionFailureMessage ∧
    extractionFailureMessage ≠ "NotReadableError" :=
  ⟨rfl, by decide⟩

/-- C8 (amended): whenever the loader stage's file read fails, the
pipeline aborts with no partial output, but the I/O error is caught by
the same catch-all handler as decode failures and replaced by the fixed
message "Failed to extract audio. The file might be corrupt or the format
is unsupported." rather than surfaced verbatim. -/
theorem C8_loader_error_replaced (e : String)
    (decodeAudioData : List ℕ → Except String DecodedAudio) :
    extractAudioFromVideo (Except.error e) decodeAudioData =
      Except.error extractionFailureMessage := rfl

/-- C9 (amended): for caption times within one day, the exported content is, for
each caption in order, a 1-based sequence-number line, a timestamp line
holding the caption's start and end times in the comma-separated
HH:MM:SS,mmm form, the caption text, and a blank-line separator. -/
theorem C9_subrip_format (captions : List Caption)
    (h : ∀ c ∈ captions, 0 ≤ c.startTime ∧ c.startTime < 86400 ∧
        0 ≤ c.endTime ∧ c.endTime < 86400) :
    srtContent captions = String.join (captions.enum.map fun p =>
      toString (p.1 + 1) ++ "\n" ++
      specTimestamp (jsDateMs p.2.startTime).toNat ++ " --> " ++
      specTimestamp (jsDateMs p.2.endTime).toNat ++ "\n" ++
      p.2.text ++ "\n\n") := by
  rw [srtContent, foldl_srtEntry, string_empty_append]
  congr 1
  apply List.map_congr_left
  intro p hp
  obtain ⟨hs0, hs1, he0, he1⟩ := h p.2 (List.snd_mem_of_mem_enum hp)
  rw [srtEntry, srtTimestamp_eq_spec _ hs0 hs1, srtTimestamp_eq_spec _ he0 he1]

/-- C9 fails as stated for times of a day or more: a caption starting at
86400 seconds is exported with the hour field wrapped modulo 24 (the Date
breakdown shows time of day), so the timestamp line does not hold the
caption's time 24:00:00,000. -/
theorem C9_day_wrap_counterexample :
    srtContent [Caption.mk "c" 86400 86400 "X"] =
      "1\n00:00:00,000 --> 00:00:00,000\nX\n\n" ∧
    specTimestamp (jsDateMs (86400 : ℚ)).toNat = "24:00:00,000" := by
  have hms : jsDateMs (86400 : ℚ) = 86400000 := by
    rw [jsDateMs, truncTowardZero, if_neg (by norm_num)]
    norm_num
  have hts : srtTimestamp (86400 : ℚ) = "00:00:00,000" := by
    rw [srtTimestamp, hms]
    decide
  constructor
  · rw [show srtContent [Caption.mk "c" 86400 86400 "X"] =
        "" ++ srtEntry 0 (Caption.mk "c" 86400 86400 "X") from rfl,
      string_empty_append]
    show toString (0 + 1) ++ "\n" ++ srtTimestamp (86400 : ℚ) ++ " --> " ++
        srtTimestamp (86400 : ℚ) ++ "\n" ++ "X" ++ "\n\n" =
      "1\n00:00:00,000 --> 00:00:00,000\nX\n\n"
    rw [hts]
    decide
  · rw [hms]
    decide

/-- C9 witness at a one-caption list. -/
theorem C9_subrip_format_witness :
    (∀ c ∈ [Caption.mk "cap-0" (3 / 2) (9 / 4) "Hi"],
      0 ≤ c.startTime ∧ c.startTime < 86400 ∧ 0 ≤ c.endTime ∧ c.endTime < 86400) ∧
    srtContent [Caption.mk "cap-0" (3 / 2) (9 / 4) "Hi"] =
      String.join ((List.enum [Caption.mk "cap-0" (3 / 2) (9 / 4) "Hi"]).map fun p =>
        toString (p.1 + 1) ++ "\n" ++
        specTimestamp (jsDateMs p.2.startTime).toNat ++ " --> " ++
        specTimestamp (jsDateMs p.2.endTime).toNat ++ "\n" ++
        p.2.text ++ "\n\n") := by
  have hh : ∀ c ∈ [Caption.mk "cap-0" (3 / 2) (9 / 4) "Hi"],
      0 ≤ c.startTime ∧ c.startTime < 86400 ∧ 0 ≤ c.endTime ∧ c.endTime < 86400 := by
    intro c hc
    fin_cases hc
    refine ⟨by norm_num, by norm_num, by norm_num, by norm_num⟩
  exact ⟨hh, C9_subrip_format _ hh⟩

/-- C10: a selected file larger than 500 * 1024 * 1024 bytes only sets
the error message, leaving the loaded video file, video URL and caption
list untouched; a file within the limit is loaded with captions and error
cleared. -/
theorem C10_file_size_gate (st : AppState) (file : JsFile) (newUrl : String) :
    (file.size > 500 * 1024 * 1024 →
      handleFileChange st (some file) newUrl =
        { st with error := some "File is too large. Max size is 500MB." }) ∧
    (file.size ≤ 500 * 1024 * 1024 →
      handleFileChange st (some file) newUrl =
        AppState.mk (some file) (some newUrl) [] none) := by
  constructor <;> intro hsz
  · simp only [handleFileChange]
    rw [if_pos (show file.size > MAX_FILE_SIZE_MB * 1024 * 1024 from hsz)]
    have hmsg : fileTooLargeMessage = "File is too large. Max size is 500MB." := by decide
    rw [hmsg]
  · simp only [handleFileChange]
    rw [if_neg (show ¬ file.size > MAX_FILE_SIZE_MB * 1024 * 1024 from not_lt.2 hsz)]

/-- C10 witness: one oversized and one small file against an empty
state. -/
theorem C10_file_size_gate_witness :
    handleFileChange (AppState.mk none none [] none)
        (some (JsFile.mk "big.mp4" (500 * 1024 * 1024 + 1))) "blob:demo" =
      AppState.mk none none []
        (some "File is too large. Max size is 500MB.") ∧
    handleFileChange (AppState.mk none none [] none)
        (some (JsFile.mk "small.mp4" 7)) "blob:demo" =
      AppState.mk (some (JsFile.mk "small.mp4" 7)) (some "blob:demo") [] none :=
  ⟨(C10_file_size_gate (AppState.mk none none [] none)
      (JsFile.mk "big.mp4" (500 * 1024 * 1024 + 1)) "blob:demo").1 (by norm_num),
   (C10_file_size_gate (AppState.mk none none [] none)
      (JsFile.mk "small.mp4" 7) "blob:demo").2 (by norm_num)⟩

end AutoCaption
